import Mathlib

/-!
Verification development for the sequence clustering, outlier-detection and
representative-selection engine of the vir_to_host repository
(src/utils/clustering_utils.py, class ClusteringUtils).

The Python code is shallowly embedded: numeric data is modelled over the
rationals, the filesystem is an explicit association list from path strings to
structured file contents, external binaries (mafft, cd-hit, cd-hit-est) and the
pairwise aligner are deterministic oracles bundled in an environment record,
and functions that can raise are modelled with Except.  The chi-square inverse
CDF of scipy is kept abstract as a function parameter from the number of
degrees of freedom to a rational cutoff.
-/

namespace VirToHost

/-! ## Generic list and string helpers (kernel-reducible) -/

/-- Insertion of an element into a ℚ-sorted list, ascending; used to model
numpy median computation (sorting of the similarity values). -/
def insertRat (q : ℚ) : List ℚ → List ℚ
  | [] => [q]
  | r :: rest => if q ≤ r then q :: r :: rest else r :: insertRat q rest

/-- Insertion sort on rationals, ascending. -/
def sortRat : List ℚ → List ℚ
  | [] => []
  | q :: rest => insertRat q (sortRat rest)

/-- Lexicographic strict order on character lists, mirroring the code-point
comparison Python uses on str. -/
def charListLt : List Char → List Char → Bool
  | [], [] => false
  | [], _ :: _ => true
  | _ :: _, [] => false
  | a :: as, b :: bs => if a < b then true else if b < a then false else charListLt as bs

/-- Strict string order as Python compares str values. -/
def strLt (a b : String) : Bool := charListLt a.toList b.toList

/-- Insertion of a string into a sorted list under strLt. -/
def insertStr (s : String) : List String → List String
  | [] => [s]
  | r :: rest => if strLt s r then s :: r :: rest else r :: insertStr s rest

/-- Insertion sort of strings, ascending, mirroring the sorted key order of a
pandas groupby. -/
def sortStr : List String → List String
  | [] => []
  | s :: rest => insertStr s (sortStr rest)

/-- Test whether pat is a prefix of s (over characters). -/
def isPre : List Char → List Char → Bool
  | [], _ => true
  | _ :: _, [] => false
  | p :: ps, c :: cs => if p = c then isPre ps cs else false

/-- Fuel-driven replace-all over character lists: one step of Python
str.replace.  The fuel argument is always instantiated with the length of the
subject string, which dominates the number of steps. -/
def replaceFuel (pat rep : List Char) : ℕ → List Char → List Char
  | 0, s => s
  | _ + 1, [] => []
  | fuel + 1, c :: rest =>
    if isPre pat (c :: rest) then
      rep ++ replaceFuel pat rep fuel (List.drop (pat.length - 1) rest)
    else
      c :: replaceFuel pat rep fuel rest

/-- Model of Python str.replace(old, new): replaces every non-overlapping
occurrence, scanning left to right.  The empty pattern does not occur in the
source, and is mapped to the identity. -/
def pyReplace (s pat rep : String) : String :=
  if pat.toList.isEmpty then s
  else String.mk (replaceFuel pat.toList rep.toList s.toList.length s.toList)

/-- Split a character list at every occurrence of a separator, mirroring
Python str.split(sep): no collapsing of adjacent separators. -/
def splitFuel (sep : List Char) : ℕ → List Char → List Char → List (List Char)
  | 0, acc, s => [acc.reverse ++ s]
  | _ + 1, acc, [] => [acc.reverse]
  | fuel + 1, acc, c :: rest =>
    if isPre sep (c :: rest) then
      acc.reverse :: splitFuel sep fuel [] (List.drop (sep.length - 1) rest)
    else
      splitFuel sep fuel (c :: acc) rest

/-- Model of Python str.split(sep) for a nonempty separator. -/
def pySplit (s sep : String) : List String :=
  (splitFuel sep.toList s.toList.length [] s.toList).map String.mk

/-- Model of os.path.basename: the part after the last slash. -/
def pyBasename (s : String) : String :=
  match (pySplit s "/").reverse with
  | [] => s
  | last :: _ => last

/-- Model of Python int(str): optional surrounding whitespace, an optional
sign, then decimal digits; anything else raises ValueError (none here). -/
def parseDigits : List Char → Option ℕ
  | [] => none
  | cs => cs.foldlM (fun acc c => if c.isDigit then some (acc * 10 + (c.toNat - 48)) else none) 0

/-- Integer parsing as done by np.int64 applied to a cluster header string. -/
def pyInt (s : String) : Option ℤ :=
  match s.toList.dropWhile (fun c => c = ' ' ∨ c = '\t') |>.reverse.dropWhile (fun c => c = ' ' ∨ c = '\t') |>.reverse with
  | '-' :: rest => (parseDigits rest).map (fun n => -(n : ℤ))
  | '+' :: rest => (parseDigits rest).map (fun n => (n : ℤ))
  | cs => (parseDigits cs).map (fun n => (n : ℤ))

/-- Python dict insertion: updating an existing key keeps its position,
a fresh key is appended at the end. -/
def dictInsert {α : Type} (m : List (String × α)) (k : String) (v : α) : List (String × α) :=
  if (m.lookup k).isSome then m.map (fun p => if p.1 = k then (k, v) else p)
  else m ++ [(k, v)]

/-! ## Numeric summary statistics (numpy mean, min, max, median) -/

/-- Sum of a list of rationals. -/
def sumRat (l : List ℚ) : ℚ := l.foldr (fun a b => a + b) 0

/-- Model of np.mean over a nonempty list (division by the length). -/
def npMean (l : List ℚ) : ℚ := sumRat l / l.length

/-- Model of np.min over a nonempty list. -/
def npMin : List ℚ → ℚ
  | [] => 0
  | q :: rest => rest.foldl (fun a b => min a b) q

/-- Model of np.max over a nonempty list. -/
def npMax : List ℚ → ℚ
  | [] => 0
  | q :: rest => rest.foldl (fun a b => max a b) q

/-- Model of np.median over a nonempty list: middle of the sorted values, or
the mean of the two middle values for even length. -/
def npMedian (l : List ℚ) : ℚ :=
  let s := sortRat l
  if l.length % 2 = 1 then s.getD (l.length / 2) 0
  else (s.getD (l.length / 2 - 1) 0 + s.getD (l.length / 2) 0) / 2

/-- Quadruple of NaN sentinels; the Python code uses np.nan, modelled as
none. -/
def nanQuad : List (Option ℚ) := [none, none, none, none]

/-- Summary statistics [mean, min, max, median] over the similarity column of
a persisted table, as the MSA strategy computes them: the statistics stay NaN
for an empty table, and any NaN entry propagates to all four statistics (numpy
mean, min, max and median all propagate NaN). -/
def statsOf (sims : List (Option ℚ)) : List (Option ℚ) :=
  if sims.isEmpty then nanQuad
  else if sims.any (fun o => o.isNone) then nanQuad
  else
    let v := sims.reduceOption
    [some (npMean v), some (npMin v), some (npMax v), some (npMedian v)]

/-- Summary statistics [mean, min, max, median] over a plain nonempty list of
rationals, as the CD-HIT strategy computes them. -/
def statsQ (sims : List ℚ) : List (Option ℚ) :=
  [some (npMean sims), some (npMin sims), some (npMax sims), some (npMedian sims)]

end VirToHost

namespace VirToHost

/-! ## DistanceMetric: Levenshtein-based pairwise alignment distance
(clustering_utils.py, get_pairwise_alignment_distance) -/

/-- Fuel-driven Levenshtein distance over character lists with unit costs,
embedding the Levenshtein.distance library call of the source.  The fuel is
always instantiated with the sum of the two lengths, which strictly bounds the
recursion depth, so the zero-fuel branch is unreachable. -/
def levFuel : ℕ → List Char → List Char → ℕ
  | _, [], ys => ys.length
  | _, x :: xs, [] => (x :: xs).length
  | 0, _ :: _, _ :: _ => 0
  | fuel + 1, x :: xs, y :: ys =>
    min (min (levFuel fuel xs (y :: ys) + 1) (levFuel fuel (x :: xs) ys + 1))
      (levFuel fuel xs ys + (if x = y then 0 else 1))

/-- Levenshtein distance between two strings (the lev call of the source). -/
def lev (a b : String) : ℕ := levFuel (a.toList.length + b.toList.length) a.toList b.toList

/-- Embedding of get_pairwise_alignment_distance: lev(seq1,seq2) divided by
the maximum of the two lengths.  When both strings are empty, numpy divides
zero by zero and the function yields NaN (modelled as none); the except branch
of the source also returns np.nan. -/
def get_pairwise_alignment_distance (seq1 seq2 : String) : Option ℚ :=
  if max seq1.toList.length seq2.toList.length = 0 then none
  else some ((lev seq1 seq2 : ℚ) / (max seq1.toList.length seq2.toList.length : ℚ))

/-! ## DistanceMetric: Hamming-based column similarity
(clustering_utils.py, compute_similarity_across_aligned_sequences) -/

/-- Record of a pair of accessions, the relevant fields of the pandas row
handed to compute_similarity_across_aligned_sequences. -/
structure PairRecord where
  accession_1 : String
  accession_2 : String
deriving DecidableEq, Repr

/-- Count of positions at which two equal-length token sequences disagree. -/
def mismatchCount : List ℕ → List ℕ → ℕ
  | [], _ => 0
  | _, [] => 0
  | a :: as, b :: bs => (if a = b then 0 else 1) + mismatchCount as bs

/-- Model of scipy.spatial.distance.hamming: fraction of mismatched positions
of two token sequences.  Unequal lengths raise in scipy (error); two empty
sequences produce a NaN fraction (none). -/
def scipyHamming (u v : List ℕ) : Except String (Option ℚ) :=
  if u.length ≠ v.length then .error "ValueError"
  else if u.length = 0 then .ok none
  else .ok (some ((mismatchCount u v : ℚ) / (u.length : ℚ)))

/-- Embedding of compute_similarity_across_aligned_sequences: identity pairs
short-circuit to similarity 1; otherwise both accessions are looked up in the
token map (KeyError when absent) and the similarity is one minus the Hamming
fraction (NaN propagates). -/
def compute_similarity_across_aligned_sequences
    (record : PairRecord) (seq_to_token : List (String × List ℕ)) :
    Except String (Option ℚ) :=
  if record.accession_1 = record.accession_2 then .ok (some 1)
  else
    match seq_to_token.lookup record.accession_1 with
    | none => .error "KeyError"
    | some seq_1 =>
      match seq_to_token.lookup record.accession_2 with
      | none => .error "KeyError"
      | some seq_2 =>
        match scipyHamming seq_1 seq_2 with
        | .error e => .error e
        | .ok none => .ok none
        | .ok (some h) => .ok (some (1 - h))

/-! ## Fuel lemmas for the Levenshtein embedding -/

theorem levFuel_self (fuel : ℕ) : ∀ a : List Char, levFuel fuel a a = 0 := by
  induction fuel with
  | zero =>
    intro a
    cases a with
    | nil => rfl
    | cons x xs => rfl
  | succ n ih =>
    intro a
    cases a with
    | nil => rfl
    | cons x xs =>
      have h := ih xs
      simp [levFuel, h]

theorem levFuel_symm (fuel : ℕ) : ∀ a b : List Char, levFuel fuel a b = levFuel fuel b a := by
  induction fuel with
  | zero =>
    intro a b
    cases a with
    | nil => cases b with
      | nil => rfl
      | cons y ys => rfl
    | cons x xs => cases b with
      | nil => rfl
      | cons y ys => rfl
  | succ n ih =>
    intro a b
    cases a with
    | nil => cases b with
      | nil => rfl
      | cons y ys => rfl
    | cons x xs => cases b with
      | nil => rfl
      | cons y ys =>
        have h1 := ih xs (y :: ys)
        have h2 := ih (x :: xs) ys
        have h3 := ih xs ys
        have hc : (if x = y then (0:ℕ) else 1) = (if y = x then 0 else 1) := by
          by_cases h : x = y
          · simp [h]
          · have h2 : ¬ y = x := fun hyx => h (Eq.symm hyx)
            simp [h, h2]
        simp only [levFuel, h1, h2, h3, hc]
        omega

end VirToHost

namespace VirToHost

/-! ## OutlierDetector (clustering_utils.py,
compute_outliers_with_mahalanobis_dist and
compute_outliers_with_euclidean_dist)

The feature matrix is a list of rows of rationals; the column count is read
off the first row, as numpy does for a rectangular array (empty matrices are
outside the modelled domain).  The scipy chi-square inverse CDF at probability
0.95 is abstract: both detectors take it as a function chi2f from the degrees
of freedom to the rational cutoff. -/

/-- Number of columns of the feature matrix (shape[1] of the numpy array). -/
def numCols (data : List (List ℚ)) : ℕ := (data.headD []).length

/-- Entry access of the feature matrix (0 outside the rectangle; the source
arrays are rectangular). -/
def ent (data : List (List ℚ)) (i j : ℕ) : ℚ := (data.getD i []).getD j 0

/-- Column mean of the feature matrix: np.mean(data, axis=0). -/
def colMean (data : List (List ℚ)) (j : ℕ) : ℚ :=
  (∑ i ∈ Finset.range data.length, ent data i j) / (data.length : ℚ)

/-- Model of np.linalg.det: defined only for a square matrix; a non-square
input raises inside numpy, which the source catches and ignores. -/
def npDet (data : List (List ℚ)) : Option ℚ :=
  if data.length = numCols data then
    some (Matrix.det (Matrix.of fun i j : Fin data.length => ent data i.val j.val))
  else none

/-- Sample covariance entry of np.cov(data, rowvar=False) with the default
ddof of 1 (valid for at least two rows, the domain used by the claims). -/
def npCovEnt (data : List (List ℚ)) (j k : ℕ) : ℚ :=
  (∑ i ∈ Finset.range data.length,
      (ent data i j - colMean data j) * (ent data i k - colMean data k)) /
    ((data.length : ℚ) - 1)

/-- Covariance matrix of the feature matrix as a square matrix over the
column indices. -/
def covMatrix (data : List (List ℚ)) : Matrix (Fin (numCols data)) (Fin (numCols data)) ℚ :=
  Matrix.of fun j k => npCovEnt data j.val k.val

/-- Model of np.where(distances > cutoff)[0]: the 0-based positions of the
entries strictly above the cutoff. -/
def whereGt (l : List ℚ) (cutoff : ℚ) : List ℕ :=
  (List.range l.length).filter (fun i => cutoff < l.getD i 0)

/-- Inverse covariance entry, written with the adjugate so that it stays
computable; used only on the branch where the determinant is nonzero, where it
agrees with np.linalg.matrix_power(covariance, -1). -/
def covInvEnt (data : List (List ℚ)) (j k : Fin (numCols data)) : ℚ :=
  ((covMatrix data).det)⁻¹ * (Matrix.adjugate (covMatrix data)) j k

/-- Squared Mahalanobis distance of row i to the centroid through the inverse
covariance: (x−centroid)ᵗ · Σ⁻¹ · (x−centroid). -/
def mahalanobisSq (data : List (List ℚ)) (i : ℕ) : ℚ :=
  ∑ j : Fin (numCols data), ∑ k : Fin (numCols data),
    (ent data i j.val - colMean data j.val) * covInvEnt data j k *
      (ent data i k.val - colMean data k.val)

end VirToHost

namespace VirToHost

/-- Embedding of compute_outliers_with_mahalanobis_dist.  The source first
tries np.linalg.det on the raw matrix (non-square inputs raise inside numpy
and the exception is swallowed); a zero determinant returns np.nan (none).
It then inverts the covariance matrix with np.linalg.matrix_power(·, -1):
for fewer than two columns np.cov yields a 0-d array and the inversion
raises, and for a singular covariance matrix the inversion raises; both
exceptional paths return np.nan (none).  Otherwise the squared Mahalanobis
distances are compared against the chi-square cutoff at the column count and
the strictly exceeding 0-based row indices are returned.  The trailing
statistics and ellipse-plot block of the source never changes the returned
value for at least two columns and is not modelled. -/
def compute_outliers_with_mahalanobis_dist (chi2f : ℕ → ℚ) (data : List (List ℚ)) :
    Option (List ℕ) :=
  let detZero : Bool :=
    match npDet data with
    | some d => d = 0
    | none => false
  if detZero then none
  else if numCols data < 2 then none
  else if (covMatrix data).det = 0 then none
  else
    let distances := (List.range data.length).map (fun i => mahalanobisSq data i)
    some (whereGt distances (chi2f (numCols data)))

/-- Embedding of compute_outliers_with_euclidean_dist.  Per row the score is
the signed sum of (row − column mean); the cutoff is the chi-square inverse
CDF at 0.95 with the column count as degrees of freedom; rows whose score
strictly exceeds the cutoff are flagged.  After computing the indices the
source builds a diagnostic circle plot anchored at (centroid[0], centroid[1]),
which raises an IndexError for fewer than two columns before anything is
returned. -/
def compute_outliers_with_euclidean_dist (chi2f : ℕ → ℚ) (data : List (List ℚ)) :
    Except String (List ℕ) :=
  let centroid := (List.range (numCols data)).map (fun j => colMean data j)
  let distances := data.map (fun row =>
    sumRat ((List.zip row centroid).map (fun p => p.1 - p.2)))
  let cutoff := chi2f (numCols data)
  let outlier_indexes := whereGt distances cutoff
  if numCols data < 2 then .error "IndexError"
  else .ok outlier_indexes

end VirToHost

namespace VirToHost

/-! ## Filesystem and external-tool environment

Paths are strings; file contents are structured values.  Writing a path
replaces any previous content; removing erases it.  External binaries are
deterministic oracles carried in an Ext record. -/

/-- Biopython SeqIO record: identifier, full description line and sequence. -/
structure SeqRecord where
  id : String
  description : String
  seq : String
deriving DecidableEq, Repr

/-- Structured contents of a file in the model. -/
inductive FileContent where
  /-- Fasta file as its list of records. -/
  | fasta (records : List SeqRecord)
  /-- Persisted pairwise-similarity table with columns accession_1,
  accession_2, similarity (none models NaN). -/
  | csv (rows : List (String × String × Option ℚ))
  /-- Pickled mapping from opaque short names to original element keys. -/
  | pickleMap (entries : List (String × String))
  /-- Pickled mapping from accession pairs to similarity values. -/
  | pickleSim (entries : List ((String × String) × ℚ))
  /-- Raw text (cd-hit cluster reports, log files). -/
  | text (s : String)
deriving DecidableEq, Repr

/-- Lookup of a path in an association list of files. -/
def findFile : List (String × FileContent) → String → Option FileContent
  | [], _ => none
  | (k, v) :: rest, p => if k = p then some v else findFile rest p

/-- Removal of every binding of a path. -/
def eraseFile : List (String × FileContent) → String → List (String × FileContent)
  | [], _ => []
  | (k, v) :: rest, p => if k = p then eraseFile rest p else (k, v) :: eraseFile rest p

/-- Filesystem state: an association list from paths to contents. -/
structure FS where
  files : List (String × FileContent)
deriving DecidableEq, Repr

/-- Read the content stored at a path. -/
def FS.read (fs : FS) (p : String) : Option FileContent := findFile fs.files p

/-- Model of os.path.exists. -/
def FS.hasFile (fs : FS) (p : String) : Bool := (fs.read p).isSome

/-- Write (create or overwrite) a file. -/
def FS.write (fs : FS) (p : String) (c : FileContent) : FS :=
  ⟨(p, c) :: eraseFile fs.files p⟩

/-- Remove a file. -/
def FS.remove (fs : FS) (p : String) : FS := ⟨eraseFile fs.files p⟩

/-- Deterministic oracles for the external binaries the source shells out
to, plus the ambient working directory (os.getcwd()). -/
structure Ext where
  /-- Result of mafft on the parsed input records: none models a non-zero
  exit status, some gives the aligned records written to the output path. -/
  mafft : List SeqRecord → Option (List SeqRecord)
  /-- Result of cd-hit (similarity flavour) on the parsed input records at a
  threshold and word length: none models failure, some gives the contents of
  the output file and of the derived .clstr report. -/
  cdhit : List SeqRecord → ℚ → ℕ → Option (FileContent × String)
  /-- Result of cd-hit-est (clustering flavour), same shape. -/
  cdhitEst : List SeqRecord → ℚ → ℕ → Option (FileContent × String)
  /-- Model of os.getcwd(). -/
  cwd : String

/-- Model of list(SeqIO.parse(path, format=fasta)): records of a fasta file;
parsing a missing file is never reached behind the existence guards, and
parsing non-fasta content yields no records, as Biopython does. -/
def readFastaD (fs : FS) (p : String) : List SeqRecord :=
  match fs.read p with
  | some (.fasta records) => records
  | _ => []

/-! ## Filesystem lemmas -/

theorem findFile_eraseFile (l : List (String × FileContent)) (p q : String) :
    findFile (eraseFile l p) q = if q = p then none else findFile l q := by
  by_cases hq : q = p
  · subst hq
    rw [if_pos rfl]
    induction l with
    | nil => rfl
    | cons kv rest ih =>
      obtain ⟨k, v⟩ := kv
      by_cases hk : k = q
      · simpa [eraseFile, hk] using ih
      · simp [eraseFile, findFile, hk, ih]
  · rw [if_neg hq]
    induction l with
    | nil => rfl
    | cons kv rest ih =>
      obtain ⟨k, v⟩ := kv
      by_cases hk : k = p
      · have hpq : ¬ p = q := fun h => hq (Eq.symm h)
        simp [eraseFile, findFile, hk, hpq, ih]
      · simp only [eraseFile, if_neg hk, findFile, ih]

theorem FS.read_write (fs : FS) (p q : String) (c : FileContent) :
    (fs.write p c).read q = if q = p then some c else fs.read q := by
  unfold FS.write FS.read
  simp only [findFile]
  by_cases h : q = p
  · subst h
    simp
  · have h2 : ¬ p = q := fun hh => h (Eq.symm hh)
    rw [if_neg h2, if_neg h, findFile_eraseFile, if_neg h]

theorem FS.read_remove (fs : FS) (p q : String) :
    (fs.remove p).read q = if q = p then none else fs.read q := by
  unfold FS.remove FS.read
  exact findFile_eraseFile fs.files p q

theorem FS.hasFile_write (fs : FS) (p q : String) (c : FileContent) :
    (fs.write p c).hasFile q = (q = p ∨ fs.hasFile q) := by
  unfold FS.hasFile
  rw [FS.read_write]
  by_cases h : q = p <;> simp [h]

theorem FS.hasFile_remove (fs : FS) (p q : String) :
    (fs.remove p).hasFile q = (¬ q = p ∧ fs.hasFile q) := by
  unfold FS.hasFile
  rw [FS.read_remove]
  by_cases h : q = p <;> simp [h]

end VirToHost

namespace VirToHost

/-! ## SimilarityMatrixBuilder, MSA strategy
(clustering_utils.py, get_sequence_similarity_with_multiple_alignment) -/

/-- Derived path of the mafft output: Python replaces every dot of the input
path by the string with the _aligned infix. -/
def msaAlignedPath (path : String) : String := pyReplace path "." "_aligned."

/-- Derived path of the mafft log. -/
def msaLogPath (path : String) : String := pyReplace path ".fasta" ".log"

/-- Derived path of the persisted pairwise-similarity table. -/
def msaCsvPath (path : String) : String := pyReplace path ".fasta" "_similarity_values.csv"

/-- Per-character tokenization of an aligned sequence: the seq_map dictionary
{A,a→0, C,c→1, G,g→2, T,t→3, -→4}; any other character raises (none). -/
def tokenizeChar (c : Char) : Option ℕ :=
  if c = 'A' ∨ c = 'a' then some 0
  else if c = 'C' ∨ c = 'c' then some 1
  else if c = 'G' ∨ c = 'g' then some 2
  else if c = 'T' ∨ c = 't' then some 3
  else if c = '-' then some 4
  else none

/-- Tokenization of a full sequence; a failing character propagates the
ValueError of the source as none. -/
def tokenizeSeq (s : String) : Option (List ℕ) := s.toList.mapM tokenizeChar

/-- Construction of seq_id_to_array: a dict keyed by record id with Python
dict semantics (a repeated id overwrites in place), failing when any sequence
has a character outside the token alphabet. -/
def buildTokenMap (records : List SeqRecord) : Option (List (String × List ℕ)) :=
  records.foldlM
    (fun m r => (tokenizeSeq r.seq).map (fun toks => dictInsert m r.id toks)) []

/-- Construction of the ordered pair table over the token-map keys, with the
similarity column computed by compute_similarity_across_aligned_sequences;
an exception in any row aborts the pandas apply. -/
def buildPairTable (m : List (String × List ℕ)) :
    Except String (List (String × String × Option ℚ)) :=
  let keys := m.map (fun p => p.1)
  let pairs := keys.flatMap (fun a => keys.map (fun b => (a, b)))
  pairs.mapM (fun p =>
    match compute_similarity_across_aligned_sequences ⟨p.1, p.2⟩ m with
    | .error e => .error e
    | .ok s => .ok (p.1, p.2, s))

/-- Outcome of the mafft block of the MSA strategy: fail carries the
filesystem of the early NaN return (the shell redirect has already created an
empty output file when mafft itself fails), done carries the filesystem on
which the strategy proceeds. -/
inductive MafftOut where
  | fail (fs : FS)
  | done (fs : FS)
deriving DecidableEq, Repr

/-- Mafft block of get_sequence_similarity_with_multiple_alignment: skipped
when the aligned output already exists; otherwise the oracle is invoked, a
non-zero exit leaves the empty redirect target and returns early, and success
writes the aligned records and removes a pre-existing log file. -/
def msaMafftPhase (ext : Ext) (fs : FS) (path : String) : Except String MafftOut :=
  if fs.hasFile (msaAlignedPath path) then .ok (.done fs)
  else
    match ext.mafft (readFastaD fs path) with
    | none => .ok (.fail (fs.write (msaAlignedPath path) (.text "")))
    | some aligned =>
      let fs1 := fs.write (msaAlignedPath path) (.fasta aligned)
      if fs1.hasFile (msaAlignedPath path) = false then .error "RuntimeError"
      else .ok (.done (if fs1.hasFile (msaLogPath path) then fs1.remove (msaLogPath path) else fs1))

/-- Similarity-table block of get_sequence_similarity_with_multiple_alignment:
when the derived csv is absent the aligned records are parsed (the logging
line indexes record 0, raising IndexError on an empty alignment), tokenized
and paired, and the table is persisted; otherwise the persisted table is read
back. -/
def msaSimPhase (fs : FS) (path : String) :
    Except String (List (String × String × Option ℚ) × FS) :=
  if fs.hasFile (msaCsvPath path) = false then
    match readFastaD fs (msaAlignedPath path) with
    | [] => .error "IndexError"
    | r :: rs =>
      match buildTokenMap (r :: rs) with
      | none => .error "ValueError"
      | some m =>
        match buildPairTable m with
        | .error e => .error e
        | .ok t => .ok (t, fs.write (msaCsvPath path) (.csv t))
  else
    match fs.read (msaCsvPath path) with
    | some (.csv t) => .ok (t, fs)
    | some _ => .error "ParserError"
    | none => .error "FileNotFoundError"

/-- Embedding of get_sequence_similarity_with_multiple_alignment: a missing
input path returns the four NaN sentinels unchanged; otherwise the mafft
block and the similarity-table block run in sequence and the four summary
statistics of the similarity column are returned together with the updated
filesystem. -/
def get_sequence_similarity_with_multiple_alignment (ext : Ext) (fs : FS) (path : String) :
    Except String (List (Option ℚ) × FS) :=
  if fs.hasFile path = false then .ok (nanQuad, fs)
  else
    match msaMafftPhase ext fs path with
    | .error e => .error e
    | .ok (.fail fs1) => .ok (nanQuad, fs1)
    | .ok (.done fs1) =>
      match msaSimPhase fs1 path with
      | .error e => .error e
      | .ok (t, fs2) => .ok (statsOf (t.map (fun r => r.2.2)), fs2)

end VirToHost

namespace VirToHost

/-! ## SimilarityMatrixBuilder, pairwise strategy
(clustering_utils.py, get_sequences_similarity_with_pairwise_alignments) -/

/-- Unordered pairs in the order itertools.combinations produces them. -/
def combinations2 {α : Type} : List α → List (α × α)
  | [] => []
  | x :: rest => rest.map (fun y => (x, y)) ++ combinations2 rest

/-- Derived path of the pickled pairwise-similarity dictionary. -/
def pairwisePicklePath (path : String) : String :=
  pyReplace path ".fasta" "_sequences_similarity.pickle"

/-- Embedding of get_sequences_similarity_with_pairwise_alignments.  A missing
input path returns the four NaN sentinels.  Otherwise the source builds a
dict keyed by accession pairs whose values are the LISTS returned by
pairwise2.align.globalxx, and then accesses the attributes .score and .seqA
on those list values: with at least one pair this raises AttributeError
before anything is persisted.  With no pair (fewer than two sequences) the
empty pickle is written and np.min of the empty similarity list raises
ValueError. -/
def get_sequences_similarity_with_pairwise_alignments (fs : FS) (path : String) :
    Except String (List (Option ℚ) × FS) :=
  if fs.hasFile path = false then .ok (nanQuad, fs)
  else
    let sequences := readFastaD fs path
    let sequences_pairs := combinations2 sequences
    match sequences_pairs with
    | _ :: _ => .error "AttributeError"
    | [] =>
      let _fs1 := fs.write (pairwisePicklePath path) (.pickleSim [])
      .error "ValueError"

/-! ## SimilarityMatrixBuilder, CD-HIT strategy
(clustering_utils.py, get_sequences_similarity_with_cdhit) -/

/-- Attempt to read one percentage token of the report regex (digits, a dot,
optional digits, a percent sign) at the head of the character list, returning
its value as a fraction of 1 together with the rest of the input. -/
def tryPercent (s : List Char) : Option (ℚ × List Char) :=
  let intPart := s.takeWhile Char.isDigit
  let afterInt := s.dropWhile Char.isDigit
  if intPart.isEmpty then none
  else
    match afterInt with
    | '.' :: rest1 =>
      let fracPart := rest1.takeWhile Char.isDigit
      let afterFrac := rest1.dropWhile Char.isDigit
      match afterFrac with
      | '%' :: rest2 =>
        match parseDigits intPart, (if fracPart.isEmpty then some 0 else parseDigits fracPart) with
        | some ip, some fp =>
          some (((ip : ℚ) + (fp : ℚ) / ((10 : ℚ) ^ fracPart.length)) / 100, rest2)
        | _, _ => none
      | _ => none
    | _ => none

/-- Fuel-driven scan of every match of the percentage regex of the report
parser, left to right and non-overlapping; the fuel is the input length. -/
def scanPercentsFuel : ℕ → List Char → List ℚ
  | 0, _ => []
  | _ + 1, [] => []
  | fuel + 1, c :: rest =>
    match tryPercent (c :: rest) with
    | some (q, rest2) => q :: scanPercentsFuel fuel rest2
    | none => scanPercentsFuel fuel rest

/-- Every similarity percentage of a cd-hit cluster report, divided by 100,
as the finditer loop of the source extracts them. -/
def scanPercents (s : String) : List ℚ := scanPercentsFuel s.toList.length s.toList

/-- Derived auxiliary directory of the CD-HIT similarity strategy
(f-string over os.getcwd()). -/
def cdhitAuxDir (ext : Ext) : String := ext.cwd ++ "/cdhit_aux/"

/-- Derived cd-hit output path of the CD-HIT similarity strategy. -/
def cdhitSimOutPath (ext : Ext) (path : String) : String :=
  cdhitAuxDir ext ++ "/cdhit_group_out_" ++ pyBasename path

/-- Derived cd-hit log path of the CD-HIT similarity strategy. -/
def cdhitSimLogPath (ext : Ext) (path : String) : String :=
  cdhitSimOutPath ext path ++ ".log"

/-- Word-length lookup table of the CD-HIT similarity strategy, in dict
insertion order: the source takes the first key interval containing the
threshold and raises IndexError when none matches. -/
def threshold_range_to_wordlen : List ((ℚ × ℚ) × ℕ) :=
  [((7/10, 1), 5), ((6/10, 7/10), 4), ((5/10, 6/10), 3), ((4/10, 5/10), 2)]

/-- First matching word length for a threshold. -/
def cdhitSimWordLen (threshold : ℚ) : Option ℕ :=
  ((threshold_range_to_wordlen.filter
      (fun kv => kv.1.1 ≤ threshold ∧ threshold ≤ kv.1.2)).map (fun kv => kv.2)).head?

/-- Embedding of get_sequences_similarity_with_cdhit.  A missing input path
returns the four NaN sentinels.  When no cached output exists: fewer than
three sequences fall back to the pairwise strategy; otherwise cd-hit runs (the
shell redirect creates the log file first; a failure is only logged).  The
.clstr report is then parsed for percentages; an empty report returns NaN
sentinels; otherwise the output and log files are removed (a missing output
makes the rm -r command fail, raising RuntimeError) and the four summary
statistics of the percentages are returned. -/
def get_sequences_similarity_with_cdhit (ext : Ext) (fs : FS) (path : String)
    (threshold : ℚ) : Except String (List (Option ℚ) × FS) :=
  if fs.hasFile path = false then .ok (nanQuad, fs)
  else
    let outPath := cdhitSimOutPath ext path
    let logPath := cdhitSimLogPath ext path
    let step1 : Except String (Option FS) :=
      if fs.hasFile outPath then .ok (some fs)
      else
        let num_sequences := (readFastaD fs path).length
        if num_sequences < 3 then .ok none
        else
          match cdhitSimWordLen threshold with
          | none => .error "IndexError"
          | some word_len =>
            let fsLog := fs.write logPath (.text "")
            match ext.cdhit (readFastaD fs path) threshold word_len with
            | none => .ok (some fsLog)
            | some (outContent, clstrText) =>
              .ok (some ((fsLog.write outPath outContent).write (outPath ++ ".clstr") (.text clstrText)))
    match step1 with
    | .error e => .error e
    | .ok none => get_sequences_similarity_with_pairwise_alignments fs path
    | .ok (some fs1) =>
      match fs1.read (outPath ++ ".clstr") with
      | none => .error "FileNotFoundError"
      | some (.text clstr) =>
        let similarities := scanPercents clstr
        if similarities.isEmpty then .ok (nanQuad, fs1)
        else if fs1.hasFile outPath = false then .error "RuntimeError"
        else
          let fs2 := fs1.remove outPath
          let fs3 := if fs2.hasFile logPath then fs2.remove logPath else fs2
          .ok (statsQ similarities, fs3)
      | some _ => .error "UnicodeDecodeError"

end VirToHost

namespace VirToHost

/-! ## ClusterAssigner (clustering_utils.py, get_cdhit_clusters) -/

/-- Input row of the elements dataframe: accession, taxon name and sequence. -/
structure ElmRow where
  accession : String
  taxon_name : String
  sequence : String
deriving DecidableEq, Repr

/-- Word length chosen from the homology threshold by the nested conditional
of get_cdhit_clusters:
(8 if thr greater than 0.7 else 4) if thr greater than 0.6 else
(3 if thr greater than 0.5 else 2). -/
def clusterWordLen (threshold : ℚ) : ℕ :=
  if 6/10 < threshold then (if 7/10 < threshold then 8 else 4)
  else (if 5/10 < threshold then 3 else 2)

/-- Deterministic rendering of the homology threshold inside the derived
output path; only injectivity and determinism of the rendering matter to the
development, not the exact digits Python would print. -/
def floatRepr (q : ℚ) : String := toString q.num ++ "d" ++ toString q.den

/-- Derived path of the serialized cd-hit input under the auxiliary
directory. -/
def clusInputPath (auxDir : String) : String := auxDir ++ "/sequences.fasta"

/-- Derived path of the pickled opaque-name translator. -/
def clusNamesPath (auxDir : String) : String := auxDir ++ "/names_translator.pickle"

/-- Derived path of the cd-hit-est output for a homology threshold. -/
def clusOutPath (auxDir : String) (threshold : ℚ) : String :=
  auxDir ++ "/cdhit_out_thr_" ++ floatRepr threshold

/-- Derived path of the cd-hit-est log. -/
def clusLogPath (auxDir : String) : String := auxDir ++ "/cdhit.log"

/-- Lazy capture of the member regex up to the first three consecutive dots:
the characters before the first occurrence of "..." in the input, or none
when no such occurrence exists. -/
def captureTo3Dots : List Char → Option (List Char)
  | '.' :: '.' :: '.' :: _ => some []
  | c :: rest => (captureTo3Dots rest).map (fun cap => c :: cap)
  | [] => none

/-- Leftmost match of the member regex of the report parser on one member
line: the capture between the first viable opening angle bracket and the
following three dots. -/
def memberSearch : List Char → Option String
  | [] => none
  | '>' :: rest =>
    match captureTo3Dots rest with
    | some cap => some (String.mk cap)
    | none => memberSearch rest
  | _ :: rest => memberSearch rest

/-- Parse of one cluster block of a cd-hit .clstr report: the block header
yields the numeric cluster id (np.int64 over the header string), every
nonempty member line must match the member regex (AttributeError otherwise)
and its opaque name must be known to the translator (KeyError otherwise). -/
def parseCluster (fakeToElm : List (String × String)) (block : String) :
    Except String (ℤ × List String) :=
  match pySplit block "\n" with
  | [] => .error "IndexError"
  | header :: memberLines =>
    match pyInt header with
    | none => .error "ValueError"
    | some cid =>
      let step : Except String (List String) := memberLines.foldlM
        (fun (acc : List String) line =>
          if line.toList.isEmpty then .ok acc
          else
            match memberSearch line.toList with
            | none => .error "AttributeError"
            | some fake =>
              match fakeToElm.lookup fake with
              | none => .error "KeyError"
              | some elm => .ok (acc ++ [elm]))
        []
      match step with
      | .error e => (.error e : Except String (ℤ × List String))
      | .ok members => .ok (cid, members)

/-- Serialization state of the first block of get_cdhit_clusters: the three
dicts and the running opaque-name counter. -/
structure ClusPrepState where
  elm_to_seq : List (String × String)
  elm_to_fake_name : List (String × String)
  fake_name_to_elm : List (String × String)
  i : ℕ

/-- Iteration over the elements dataframe building the three dicts, with
Python dict overwrite semantics and the counter incremented per row. -/
def clusPrep (elements : List ElmRow) : ClusPrepState :=
  elements.foldl
    (fun st row =>
      let elm := row.accession ++ "_" ++ row.taxon_name
      { elm_to_seq := dictInsert st.elm_to_seq elm row.sequence
        elm_to_fake_name := dictInsert st.elm_to_fake_name elm ("S" ++ toString st.i)
        fake_name_to_elm := dictInsert st.fake_name_to_elm ("S" ++ toString st.i) elm
        i := st.i + 1 })
    ⟨[], [], [], 0⟩

/-- Fasta records written to the cd-hit input file: one record per key of
elm_to_seq, named by its opaque short name. -/
def clusInputRecords (st : ClusPrepState) : List SeqRecord :=
  st.elm_to_seq.map (fun p =>
    let fake := (st.elm_to_fake_name.lookup p.1).getD ""
    ⟨fake, fake, p.2⟩)

/-- Embedding of get_cdhit_clusters.  When either the serialized input or the
translator pickle is missing, both are regenerated from the elements
dataframe.  When the output for the given threshold is missing, cd-hit-est is
invoked (failure raises RuntimeError).  The translator pickle and the .clstr
report are then read and parsed into the element-to-cluster mapping, later
clusters overwriting earlier duplicate members. -/
def get_cdhit_clusters (ext : Ext) (fs : FS) (elements : List ElmRow)
    (homology_threshold : ℚ) (auxDir : String) :
    Except String (List (String × ℤ) × FS) :=
  let inputPath := clusInputPath auxDir
  let namesPath := clusNamesPath auxDir
  let outPath := clusOutPath auxDir homology_threshold
  let logPath := clusLogPath auxDir
  let fs1 :=
    if fs.hasFile inputPath = false ∨ fs.hasFile namesPath = false then
      let st := clusPrep elements
      (fs.write inputPath (.fasta (clusInputRecords st))).write namesPath
        (.pickleMap st.fake_name_to_elm)
    else fs
  let step2 : Except String FS :=
    if fs1.hasFile outPath = false then
      let word_len := clusterWordLen homology_threshold
      let fsLog := fs1.write logPath (.text "")
      match ext.cdhitEst (readFastaD fs1 inputPath) homology_threshold word_len with
      | none => .error "RuntimeError"
      | some (outContent, clstrText) =>
        .ok ((fsLog.write outPath outContent).write (outPath ++ ".clstr") (.text clstrText))
    else .ok fs1
  match step2 with
  | .error e => .error e
  | .ok fs2 =>
    match fs2.read namesPath with
    | none => .error "FileNotFoundError"
    | some (.pickleMap fakeToElm) =>
      match fs2.read (outPath ++ ".clstr") with
      | none => .error "FileNotFoundError"
      | some (.text clstrText) =>
        let clusters := (pySplit clstrText ">Cluster").drop 1
        let step3 : Except String (List (String × ℤ)) :=
          clusters.foldlM
            (fun (acc : List (String × ℤ)) block =>
              match parseCluster fakeToElm block with
              | .error e => .error e
              | .ok (cid, members) =>
                .ok (members.foldl (fun m elm => dictInsert m elm cid) acc))
            []
        match step3 with
        | .error e => .error e
        | .ok elm_to_cluster => .ok (elm_to_cluster, fs2)
      | some _ => .error "UnicodeDecodeError"
    | some _ => .error "UnpicklingError"

end VirToHost

namespace VirToHost

/-! ## RepresentativeSelector (clustering_utils.py, get_distance,
compute_pairwise_sequence_distances, get_centroid and the per-cluster
selection slice of compute_clusters_representatives) -/

/-- Embedding of get_distance: both accessions are resolved to their first
non-null sequence in the records (a missing accession raises IndexError,
caught and turned into np.nan), then get_pairwise_alignment_distance is
applied. -/
def get_distance (elm1 elm2 : String) (records_data : List ElmRow) : Option ℚ :=
  match records_data.find? (fun r => r.accession = elm1),
      records_data.find? (fun r => r.accession = elm2) with
  | some r1, some r2 => get_pairwise_alignment_distance r1.sequence r2.sequence
  | _, _ => none

/-- Embedding of compute_pairwise_sequence_distances: the dataframe of every
ordered accession pair with its pairwise distance column. -/
def compute_pairwise_sequence_distances (elements : List ElmRow) :
    List (String × String × Option ℚ) :=
  (elements.flatMap (fun e1 => elements.map (fun e2 => (e1.accession, e2.accession)))).map
    (fun p => (p.1, p.2, get_distance p.1 p.2 elements))

/-- Position of the first minimum of a pandas series with NaN entries
skipped, as Series.argmin computes it; none when no entry has a value. -/
def argminOpt (l : List (Option ℚ)) : Option ℕ :=
  let step := l.foldl
    (fun (st : ℕ × Option (ℕ × ℚ)) o =>
      match o, st.2 with
      | some q, none => (st.1 + 1, some (st.1, q))
      | some q, some (bi, bq) =>
        if q < bq then (st.1 + 1, some (st.1, q)) else (st.1 + 1, some (bi, bq))
      | none, b => (st.1 + 1, b))
    (0, none)
  step.2.map (fun b => b.1)

/-- Row sums of the distance column grouped by element_1 with keys sorted
ascending, as pandas groupby(...).sum() produces them (NaN contributes 0). -/
def groupbySumDistances (rows : List (String × String × Option ℚ)) :
    List (String × ℚ) :=
  let keys := sortStr ((rows.map (fun r => r.1)).dedup)
  keys.map (fun k =>
    (k, sumRat ((rows.filter (fun r => r.1 = k)).map (fun r => (r.2.2).getD 0))))

/-- Embedding of get_centroid: the grouped row sums are computed, but the
returned row of the grouped table is selected with the argmin of the RAW
distance column of the ungrouped all-pairs table. -/
def get_centroid (elements_distances : List (String × String × Option ℚ)) :
    Option String :=
  let elements_sum_distances := groupbySumDistances elements_distances
  match argminOpt (elements_distances.map (fun r => r.2.2)) with
  | none => none
  | some idx => (elements_sum_distances.get? idx).map (fun p => p.1)

/-- Per-cluster representative selection of compute_clusters_representatives:
a single member is its own representative, otherwise the all-pairs distance
table is built and get_centroid is applied. -/
def compute_cluster_representative (cluster_members : List ElmRow) : Option String :=
  if cluster_members.length = 1 then
    (cluster_members.head?).map (fun r => r.accession)
  else
    get_centroid (compute_pairwise_sequence_distances cluster_members)

/-- Keys of the table in iteration order, first occurrence kept. -/
def firstKeys (rows : List (String × String × Option ℚ)) : List String :=
  rows.foldl (fun acc r => if acc.contains r.1 then acc else acc ++ [r.1]) []

/-- Modelled from the spec: the representative is the element whose summed
row of distances over the all-pairs table is minimal, ties broken by the
first occurrence in the iteration order of the input table. -/
def rowSumRepresentative (rows : List (String × String × Option ℚ)) :
    Option String :=
  let keys := firstKeys rows
  let sums := keys.map (fun k =>
    (k, sumRat ((rows.filter (fun r => r.1 = k)).map (fun r => (r.2.2).getD 0))))
  match argminOpt (sums.map (fun p => some p.2)) with
  | none => none
  | some idx => (sums.get? idx).map (fun p => p.1)

end VirToHost

namespace VirToHost

/-! ## Theorems

Claim C1: representative selection on the concrete three-element cluster of
the claim. -/

/-- Three cluster members realizing the distance table of claim C1:
d(A,B)=0.2, d(A,C)=0.8, d(B,C)=0.6 under the normalized Levenshtein
distance of the source. -/
def exMembers : List ElmRow :=
  [⟨"A", "t", "AAAAA"⟩, ⟨"B", "t", "AAAAC"⟩, ⟨"C", "t", "ACGTC"⟩]

/-- Expected all-pairs distance table of the example. -/
def exTable : List (String × String × Option ℚ) :=
  [("A", "A", some 0), ("A", "B", some (1/5)), ("A", "C", some (4/5)),
   ("B", "A", some (1/5)), ("B", "B", some 0), ("B", "C", some (3/5)),
   ("C", "A", some (4/5)), ("C", "B", some (3/5)), ("C", "C", some 0)]

theorem pairdist_AB : get_pairwise_alignment_distance "AAAAA" "AAAAC" = some (1/5) := by
  have hl : lev "AAAAA" "AAAAC" = 1 := by decide
  have hm : max "AAAAA".toList.length "AAAAC".toList.length = 5 := by decide
  unfold get_pairwise_alignment_distance
  rw [hm, hl]
  norm_num

theorem pairdist_AC : get_pairwise_alignment_distance "AAAAA" "ACGTC" = some (4/5) := by
  have hl : lev "AAAAA" "ACGTC" = 4 := by decide
  have hm : max "AAAAA".toList.length "ACGTC".toList.length = 5 := by decide
  unfold get_pairwise_alignment_distance
  rw [hm, hl]
  norm_num

theorem pairdist_BC : get_pairwise_alignment_distance "AAAAC" "ACGTC" = some (3/5) := by
  have hl : lev "AAAAC" "ACGTC" = 3 := by decide
  have hm : max "AAAAC".toList.length "ACGTC".toList.length = 5 := by decide
  unfold get_pairwise_alignment_distance
  rw [hm, hl]
  norm_num

theorem pairdist_self (s : String) (h : s.toList.length ≠ 0) :
    get_pairwise_alignment_distance s s = some 0 := by
  unfold get_pairwise_alignment_distance lev
  rw [levFuel_self]
  rw [if_neg (by simpa using h)]
  norm_num

theorem pairdist_symm (s1 s2 : String) :
    get_pairwise_alignment_distance s1 s2 = get_pairwise_alignment_distance s2 s1 := by
  unfold get_pairwise_alignment_distance lev
  rw [levFuel_symm, Nat.add_comm s1.toList.length, Nat.max_comm s1.toList.length,
    max_comm ((s1.toList.length : ℚ))]

theorem exTable_eq : compute_pairwise_sequence_distances exMembers = exTable := by
  have hBA : get_pairwise_alignment_distance "AAAAC" "AAAAA" = some (1/5) := by
    rw [pairdist_symm]
    exact pairdist_AB
  have hCA : get_pairwise_alignment_distance "ACGTC" "AAAAA" = some (4/5) := by
    rw [pairdist_symm]
    exact pairdist_AC
  have hCB : get_pairwise_alignment_distance "ACGTC" "AAAAC" = some (3/5) := by
    rw [pairdist_symm]
    exact pairdist_BC
  have hA : get_pairwise_alignment_distance "AAAAA" "AAAAA" = some 0 :=
    pairdist_self _ (by decide)
  have hB : get_pairwise_alignment_distance "AAAAC" "AAAAC" = some 0 :=
    pairdist_self _ (by decide)
  have hC : get_pairwise_alignment_distance "ACGTC" "ACGTC" = some 0 :=
    pairdist_self _ (by decide)
  simp [compute_pairwise_sequence_distances, exMembers, exTable, get_distance,
    List.find?, pairdist_AB, pairdist_AC, pairdist_BC, hBA, hCA, hCB, hA, hB, hC]

end VirToHost

namespace VirToHost

theorem exTable_group :
    groupbySumDistances exTable = [("A", 1), ("B", 4/5), ("C", 7/5)] := by
  have hkeys : sortStr ((exTable.map (fun r => r.1)).dedup) = ["A", "B", "C"] := by decide
  unfold groupbySumDistances
  rw [hkeys]
  norm_num [exTable, sumRat, List.filter_cons, List.filter_nil,
      (show ¬("B":String)="A" by decide), (show ¬("C":String)="A" by decide),
      (show ¬("A":String)="B" by decide), (show ¬("C":String)="B" by decide),
      (show ¬("A":String)="C" by decide), (show ¬("B":String)="C" by decide)]

theorem exTable_argmin_raw :
    argminOpt (exTable.map (fun r => r.2.2)) = some 0 := by
  norm_num [exTable, argminOpt, List.foldl]

theorem exTable_centroid : get_centroid exTable = some "A" := by
  unfold get_centroid
  rw [exTable_argmin_raw, exTable_group]
  rfl

theorem exTable_rowsum : rowSumRepresentative exTable = some "B" := by
  have hkeys : firstKeys exTable = ["A", "B", "C"] := by decide
  have hsums : (["A", "B", "C"].map (fun k =>
      (k, sumRat ((exTable.filter (fun r => r.1 = k)).map (fun r => (r.2.2).getD 0))))) =
      [("A", 1), ("B", 4/5), ("C", 7/5)] := by
    norm_num [exTable, sumRat, List.filter_cons, List.filter_nil,
      (show ¬("B":String)="A" by decide), (show ¬("C":String)="A" by decide),
      (show ¬("A":String)="B" by decide), (show ¬("C":String)="B" by decide),
      (show ¬("A":String)="C" by decide), (show ¬("B":String)="C" by decide)]
  have hmin : argminOpt ([("A", (1:ℚ)), ("B", 4/5), ("C", 7/5)].map (fun p => some p.2)) =
      some 1 := by
    norm_num [argminOpt, List.foldl]
  simp only [rowSumRepresentative, hkeys, hsums, hmin]
  rfl

/-- C1: on the symmetric three-element distance table {(A,B)=0.2, (A,C)=0.8,
(B,C)=0.6} produced by compute_pairwise_sequence_distances, the minimal-row-sum
member is B (row sums A=1.0, B=0.8, C=1.4), but the representative the source
selects through compute_clusters_representatives and get_centroid is A:
get_centroid indexes the grouped row-sum table with the argmin of the raw
all-pairs distance column, whose first minimum is the leading self-pair with
distance 0, so index 0 — the alphabetically first element — is always
returned.  The code therefore contradicts the claimed (and documented)
centroid selection. -/
theorem claim_C1_centroid_selection :
    compute_pairwise_sequence_distances exMembers = exTable ∧
    compute_cluster_representative exMembers = some "A" ∧
    rowSumRepresentative exTable = some "B" ∧
    (some "A" : Option String) ≠ some "B" := by
  refine ⟨exTable_eq, ?_, exTable_rowsum, by decide⟩
  unfold compute_cluster_representative
  rw [if_neg (by decide : ¬ exMembers.length = 1), exTable_eq]
  exact exTable_centroid

end VirToHost

namespace VirToHost

/-- C5 counterexample: on the empty string the self-distance is not 0 — the
normalizing maximum is 0, numpy divides 0 by 0 and the function yields the
NaN sentinel. -/
theorem claim_C5_empty_string_self_distance :
    get_pairwise_alignment_distance "" "" = none ∧
    get_pairwise_alignment_distance "" "" ≠ some 0 := by
  constructor
  · rfl
  · intro h
    cases h

/-- C5 (amended): get_pairwise_alignment_distance is symmetric on all inputs,
and the self-distance is 0 for every nonempty sequence; the empty sequence is
the single exception, where the result is the NaN sentinel. -/
theorem claim_C5_distance_symmetry_and_identity :
    (∀ a b : String, get_pairwise_alignment_distance a b = get_pairwise_alignment_distance b a) ∧
    (∀ a : String, a.toList.length ≠ 0 → get_pairwise_alignment_distance a a = some 0) :=
  ⟨pairdist_symm, pairdist_self⟩

/-- C5 witness: the amended statement applied at concrete sequences. -/
theorem claim_C5_distance_symmetry_and_identity_witness :
    get_pairwise_alignment_distance "AC" "GATTACA" =
      get_pairwise_alignment_distance "GATTACA" "AC" ∧
    get_pairwise_alignment_distance "AC" "AC" = some 0 :=
  ⟨claim_C5_distance_symmetry_and_identity.1 "AC" "GATTACA",
   claim_C5_distance_symmetry_and_identity.2 "AC" (by decide)⟩

/-- C4: the identity shortcut of compute_similarity_across_aligned_sequences
returns similarity 1 for any record whose two accessions coincide, for every
token map, in particular without reading (or requiring the presence of) the
accession in the map. -/
theorem claim_C4_identity_shortcut
    (seq_to_token : List (String × List ℕ)) (record : PairRecord)
    (h : record.accession_1 = record.accession_2) :
    compute_similarity_across_aligned_sequences record seq_to_token = .ok (some 1) := by
  unfold compute_similarity_across_aligned_sequences
  rw [if_pos h]

/-- C4 witness: the shortcut at a concrete record whose accession is not a
key of the (empty) token map. -/
theorem claim_C4_identity_shortcut_witness :
    (⟨"z", "z"⟩ : PairRecord).accession_1 = (⟨"z", "z"⟩ : PairRecord).accession_2 ∧
    compute_similarity_across_aligned_sequences ⟨"z", "z"⟩ [] = .ok (some 1) :=
  ⟨rfl, claim_C4_identity_shortcut [] ⟨"z", "z"⟩ rfl⟩

/-- C7: the word length get_cdhit_clusters passes to cd-hit-est follows the
four threshold bands exactly: above 0.7 yields 8, (0.6, 0.7] yields 4,
(0.5, 0.6] yields 3, and at most 0.5 yields 2. -/
theorem claim_C7_wordlen_bands (t : ℚ) :
    (7/10 < t → clusterWordLen t = 8) ∧
    (6/10 < t ∧ t ≤ 7/10 → clusterWordLen t = 4) ∧
    (5/10 < t ∧ t ≤ 6/10 → clusterWordLen t = 3) ∧
    (t ≤ 5/10 → clusterWordLen t = 2) := by
  unfold clusterWordLen
  refine ⟨fun h => ?_, fun h => ?_, fun h => ?_, fun h => ?_⟩
  · rw [if_pos (by linarith), if_pos h]
  · rw [if_pos h.1, if_neg (by linarith)]
  · rw [if_neg (by linarith), if_pos h.1]
  · rw [if_neg (by linarith), if_neg (by linarith)]

/-- C7 witness: one concrete threshold per band. -/
theorem claim_C7_wordlen_bands_witness :
    clusterWordLen (4/5) = 8 ∧ clusterWordLen (13/20) = 4 ∧
    clusterWordLen (11/20) = 3 ∧ clusterWordLen (2/5) = 2 :=
  ⟨(claim_C7_wordlen_bands (4/5)).1 (by norm_num),
   (claim_C7_wordlen_bands (13/20)).2.1 (by norm_num),
   (claim_C7_wordlen_bands (11/20)).2.2.1 (by norm_num),
   (claim_C7_wordlen_bands (2/5)).2.2.2 (by norm_num)⟩

end VirToHost

namespace VirToHost

/-- C3: each of the three similarity strategies returns the four NaN
sentinels, without raising and without touching the filesystem, whenever the
input sequence path does not exist. -/
theorem claim_C3_missing_input_sentinels (ext : Ext) (fs : FS) (path : String)
    (threshold : ℚ) (h : fs.hasFile path = false) :
    get_sequence_similarity_with_multiple_alignment ext fs path = .ok (nanQuad, fs) ∧
    get_sequences_similarity_with_pairwise_alignments fs path = .ok (nanQuad, fs) ∧
    get_sequences_similarity_with_cdhit ext fs path threshold = .ok (nanQuad, fs) := by
  refine ⟨?_, ?_, ?_⟩
  · unfold get_sequence_similarity_with_multiple_alignment
    rw [if_pos h]
  · unfold get_sequences_similarity_with_pairwise_alignments
    rw [if_pos h]
  · unfold get_sequences_similarity_with_cdhit
    rw [if_pos h]

/-- Trivial oracle environment used by concrete witnesses. -/
def extTrivial : Ext := ⟨fun _ => none, fun _ _ _ => none, fun _ _ _ => none, "/w"⟩

/-- C3 witness: the three strategies on an empty filesystem. -/
theorem claim_C3_missing_input_sentinels_witness :
    get_sequence_similarity_with_multiple_alignment extTrivial ⟨[]⟩ "v.fasta" =
      .ok (nanQuad, ⟨[]⟩) ∧
    get_sequences_similarity_with_pairwise_alignments ⟨[]⟩ "v.fasta" =
      .ok (nanQuad, ⟨[]⟩) ∧
    get_sequences_similarity_with_cdhit extTrivial ⟨[]⟩ "v.fasta" (1/2) =
      .ok (nanQuad, ⟨[]⟩) :=
  claim_C3_missing_input_sentinels extTrivial ⟨[]⟩ "v.fasta" (1/2) rfl

end VirToHost

namespace VirToHost

/-- C9 (amended): on an existing input with fewer than three sequences the
CD-HIT similarity strategy returns exactly the result of the pairwise
strategy — provided the cached cd-hit output file for the basename of the input
does not already exist, since the sequence-count check lives inside the
cache-miss branch. -/
theorem claim_C9_cdhit_small_input_fallback (ext : Ext) (fs : FS) (path : String)
    (threshold : ℚ)
    (h1 : fs.hasFile path = true)
    (h2 : fs.hasFile (cdhitSimOutPath ext path) = false)
    (h3 : (readFastaD fs path).length < 3) :
    get_sequences_similarity_with_cdhit ext fs path threshold =
      get_sequences_similarity_with_pairwise_alignments fs path := by
  unfold get_sequences_similarity_with_cdhit
  rw [if_neg (by simp [h1])]
  simp [h2, h3]

/-- First record of the C9 environments. -/
def recA : SeqRecord := ⟨"a", "a", "AA"⟩

/-- Second record of the C9 environments. -/
def recB : SeqRecord := ⟨"b", "b", "AC"⟩

/-- Filesystem with an existing two-sequence input and a pre-existing cached
cd-hit output (with its .clstr report) for the same basename. -/
def fsCached : FS :=
  ⟨[("s.fasta", .fasta [recA, recB]),
    ("/w/cdhit_aux//cdhit_group_out_s.fasta", .text "r"),
    ("/w/cdhit_aux//cdhit_group_out_s.fasta.clstr",
      .text "0\t2nt, >S1... at +/100.0%")]⟩

/-- C9 counterexample: with the cached output present, the strategy never
checks the sequence count — it parses the cached report and returns summary
statistics, while the pairwise strategy on the same existing two-sequence
input raises; the two results differ, refuting the unconditional claim. -/
theorem claim_C9_cached_output_no_fallback :
    fsCached.hasFile "s.fasta" = true ∧
    (readFastaD fsCached "s.fasta").length = 2 ∧
    get_sequences_similarity_with_cdhit extTrivial fsCached "s.fasta" (1/2) ≠
      get_sequences_similarity_with_pairwise_alignments fsCached "s.fasta" := by
  refine ⟨rfl, rfl, ?_⟩
  have hc : get_sequences_similarity_with_cdhit extTrivial fsCached "s.fasta" (1/2) =
      .ok (statsQ (scanPercents "0\t2nt, >S1... at +/100.0%"),
        (fsCached.remove "/w/cdhit_aux//cdhit_group_out_s.fasta")) := rfl
  have hp : get_sequences_similarity_with_pairwise_alignments fsCached "s.fasta" =
      .error "AttributeError" := rfl
  rw [hc, hp]
  intro h
  cases h

/-- C9 witness: the amended fallback statement at a concrete two-sequence
input without a cached output. -/
theorem claim_C9_cdhit_small_input_fallback_witness :
    get_sequences_similarity_with_cdhit extTrivial ⟨[("s.fasta", .fasta [recA, recB])]⟩
        "s.fasta" (1/2) =
      get_sequences_similarity_with_pairwise_alignments
        ⟨[("s.fasta", .fasta [recA, recB])]⟩ "s.fasta" :=
  claim_C9_cdhit_small_input_fallback extTrivial _ "s.fasta" (1/2) rfl (by decide)
    (by decide)

end VirToHost

namespace VirToHost

/-- C10: when the serialized input, the names translator and the cd-hit
output for the given threshold all exist under the auxiliary directory, the
result of get_cdhit_clusters is determined entirely by those files: the
elements dataframe is never consulted, so two calls differing only in it
agree exactly. -/
theorem claim_C10_cached_clusters_ignore_elements (ext : Ext) (fs : FS)
    (e1 e2 : List ElmRow) (homology_threshold : ℚ) (auxDir : String)
    (h1 : fs.hasFile (clusInputPath auxDir) = true)
    (h2 : fs.hasFile (clusNamesPath auxDir) = true)
    (h3 : fs.hasFile (clusOutPath auxDir homology_threshold) = true) :
    get_cdhit_clusters ext fs e1 homology_threshold auxDir =
      get_cdhit_clusters ext fs e2 homology_threshold auxDir := by
  unfold get_cdhit_clusters
  simp [h1, h2, h3]

/-- Concrete filesystem for the C10 witness: all three cached files exist. -/
def fsClusters : FS :=
  ⟨[(clusInputPath "/w/aux", .fasta [⟨"S0", "S0", "AA"⟩]),
    (clusNamesPath "/w/aux", .pickleMap [("S0", "ACC_tax")]),
    (clusOutPath "/w/aux" 1, .text "rep"),
    (clusOutPath "/w/aux" 1 ++ ".clstr", .text "0\n0\t2nt, >S0... *")]⟩

/-- C10 witness: two calls with different element dataframes on the cached
filesystem agree. -/
theorem claim_C10_cached_clusters_ignore_elements_witness :
    get_cdhit_clusters extTrivial fsClusters [⟨"x", "y", "AA"⟩] 1 "/w/aux" =
      get_cdhit_clusters extTrivial fsClusters [] 1 "/w/aux" :=
  claim_C10_cached_clusters_ignore_elements extTrivial fsClusters _ _ 1 "/w/aux"
    (by decide) (by decide) (by decide)

end VirToHost

namespace VirToHost

/-! ## Claims C2 and C6: outlier detectors -/

theorem sumRat_eq_sum (l : List ℚ) : sumRat l = l.sum := rfl

/-- Row picked out of a list whose rows are all equal. -/
theorem getD_all_eq {data : List (List ℚ)} {r : List ℚ} (h : ∀ row ∈ data, row = r)
    {i : ℕ} (hi : i < data.length) : data.getD i [] = r := by
  rw [List.getD_eq_getElem data [] hi]
  exact h _ (List.getElem_mem hi)

/-- Zipping a row against an indexed tabulation over the length of the row. -/
theorem zip_range_map (r : List ℚ) (g : ℕ → ℚ) :
    (List.zip r ((List.range r.length).map g)).map (fun p => p.1 - p.2) =
      (List.range r.length).map (fun j => r.getD j 0 - g j) := by
  induction r generalizing g with
  | nil => rfl
  | cons a rest ih =>
    have hr : List.range (rest.length + 1) = 0 :: (List.range rest.length).map Nat.succ :=
      List.range_succ_eq_map rest.length
    have hcomp1 : ((fun j => (a :: rest).getD j 0 - g j) ∘ Nat.succ) =
        fun j => rest.getD j 0 - g (j + 1) := by
      funext j
      simp [Nat.succ_eq_add_one]
    have hcomp2 : (g ∘ Nat.succ) = fun j => g (j + 1) := by
      funext j
      simp [Nat.succ_eq_add_one]
    simp only [List.length_cons, hr, List.map_cons, List.map_map, List.zip_cons_cons,
      hcomp1, hcomp2, List.getD_cons_zero]
    exact congrArg (fun t => (a - g 0) :: t) (ih (fun j => g (j + 1)))

/-- Column mean of a matrix whose rows are all equal to r. -/
theorem colMean_all_eq {data : List (List ℚ)} {r : List ℚ} (hne : data ≠ [])
    (h : ∀ row ∈ data, row = r) (j : ℕ) : colMean data j = r.getD j 0 := by
  unfold colMean
  have hlen : (data.length : ℚ) ≠ 0 := by
    have : data.length ≠ 0 := fun hl => hne (List.length_eq_zero.mp hl)
    exact_mod_cast this
  have hsum : (∑ i ∈ Finset.range data.length, ent data i j) =
      data.length * r.getD j 0 := by
    rw [Finset.sum_congr rfl (fun i hi => ?_)]
    · rw [Finset.sum_const, Finset.card_range, nsmul_eq_mul]
    · unfold ent
      rw [getD_all_eq h (Finset.mem_range.mp hi)]
  rw [hsum, mul_comm, mul_div_assoc, div_self hlen, mul_one]

/-- Getting an entry of a mapped list inside its range. -/
theorem getD_map_lt {α : Type} (data : List α) (f : α → ℚ) {i : ℕ}
    (hi : i < data.length) (dflt : α) :
    (data.map f).getD i 0 = f (data.getD i dflt) := by
  rw [List.getD_eq_getElem _ _ (by simpa using hi), List.getD_eq_getElem _ _ hi]
  simp

/-- Per-row score of the claim: signed sum of (row − column mean) across the
dimensions. -/
def rowScoreSpec (data : List (List ℚ)) (i : ℕ) : ℚ :=
  sumRat ((List.range (numCols data)).map (fun j => ent data i j - colMean data j))

/-- Characterization of the Euclidean detector on rectangular data with at
least two columns: exactly the strict-exceedance indices of the signed-sum
scores. -/
theorem euclid_eq_filter (chi2f : ℕ → ℚ) (data : List (List ℚ))
    (hrect : ∀ row ∈ data, row.length = numCols data) (hd : 2 ≤ numCols data) :
    compute_outliers_with_euclidean_dist chi2f data =
      .ok ((List.range data.length).filter
        (fun i => chi2f (numCols data) < rowScoreSpec data i)) := by
  unfold compute_outliers_with_euclidean_dist
  rw [if_neg (by omega)]
  refine congrArg Except.ok ?_
  unfold whereGt
  rw [List.length_map]
  refine List.filter_congr (fun i hi => ?_)
  have hilt : i < data.length := List.mem_range.mp hi
  have hrow : (data.map (fun row =>
      sumRat ((List.zip row ((List.range (numCols data)).map
        (fun j => colMean data j))).map (fun p => p.1 - p.2)))).getD i 0 =
      rowScoreSpec data i := by
    rw [getD_map_lt data _ hilt []]
    have hlen : (data.getD i []).length = numCols data :=
      hrect _ (by
        rw [List.getD_eq_getElem data [] hilt]
        exact List.getElem_mem hilt)
    rw [← hlen, zip_range_map (data.getD i []) (fun j => colMean data j)]
    unfold rowScoreSpec
    rw [hlen]
    rfl
  rw [hrow]

/-- C6 (amended): on a rectangular feature matrix with at least two columns,
compute_outliers_with_euclidean_dist computes per row the signed sum of
(row − column mean), uses the chi-square inverse CDF at 0.95 with the column
count as degrees of freedom as cutoff, and returns exactly the 0-based
indices of the rows whose score strictly exceeds the cutoff; for fewer than
two columns the source raises in its plotting code instead of returning (see
the counterexample). -/
theorem claim_C6_euclidean_signed_sum (chi2f : ℕ → ℚ) (data : List (List ℚ))
    (hrect : ∀ row ∈ data, row.length = numCols data) (hd : 2 ≤ numCols data) :
    compute_outliers_with_euclidean_dist chi2f data =
      .ok ((List.range data.length).filter
        (fun i => chi2f (numCols data) < rowScoreSpec data i)) :=
  euclid_eq_filter chi2f data hrect hd

/-- C6 counterexample: a one-column matrix makes the source raise an
IndexError while building the diagnostic circle plot, instead of returning
the (empty) strictly-exceeding index list the claim promises. -/
theorem claim_C6_one_column_raises :
    compute_outliers_with_euclidean_dist (fun _ => 6) [[0], [0]] = .error "IndexError" ∧
    compute_outliers_with_euclidean_dist (fun _ => 6) [[0], [0]] ≠ .ok [] := by
  refine ⟨rfl, ?_⟩
  intro h
  cases h

/-- C6 witness: the amended statement applied to a concrete rectangular
two-column matrix. -/
theorem claim_C6_euclidean_signed_sum_witness :
    compute_outliers_with_euclidean_dist (fun _ => 1) [[1, 2], [3, 4]] =
      .ok ((List.range 2).filter
        (fun i => (1 : ℚ) < rowScoreSpec [[1, 2], [3, 4]] i)) :=
  claim_C6_euclidean_signed_sum (fun _ => 1) [[1, 2], [3, 4]]
    (by simp [numCols]) (by decide)

end VirToHost

namespace VirToHost

/-- Mahalanobis detector on all-identical-rows data with at least two rows
and columns: the NaN sentinel is returned, through the zero-determinant
early return on square data and through the singular-covariance inversion
failure otherwise. -/
theorem mahalanobis_all_eq (chi2f : ℕ → ℚ) (data : List (List ℚ)) (r : List ℚ)
    (h : ∀ row ∈ data, row = r) (hn : 2 ≤ data.length) (hd : 2 ≤ numCols data) :
    compute_outliers_with_mahalanobis_dist chi2f data = none := by
  have hne : data ≠ [] := by
    intro hnil
    rw [hnil] at hn
    simp at hn
  by_cases hsq : data.length = numCols data
  · have hdz : npDet data = some 0 := by
      unfold npDet
      rw [if_pos hsq]
      refine congrArg some ?_
      refine Matrix.det_zero_of_row_eq (i := ⟨0, by omega⟩) (j := ⟨1, by omega⟩)
        (by simp) ?_
      funext k
      show ent data 0 k.val = ent data 1 k.val
      unfold ent
      rw [getD_all_eq h (by omega), getD_all_eq h (by omega)]
    unfold compute_outliers_with_mahalanobis_dist
    rw [hdz]
    simp
  · have hdz : npDet data = none := by
      unfold npDet
      rw [if_neg hsq]
    have hcov : covMatrix data = 0 := by
      refine Matrix.ext (fun j k => ?_)
      show npCovEnt data j.val k.val = 0
      unfold npCovEnt
      have hterm : ∀ i ∈ Finset.range data.length,
          (ent data i j.val - colMean data j.val) *
            (ent data i k.val - colMean data k.val) = 0 := by
        intro i hi
        have hiL : i < data.length := Finset.mem_range.mp hi
        have h1 : ent data i j.val = r.getD j.val 0 := by
          unfold ent
          rw [getD_all_eq h hiL]
        rw [h1, colMean_all_eq hne h j.val, sub_self, zero_mul]
      rw [Finset.sum_congr rfl hterm, Finset.sum_const, smul_zero, zero_div]
    unfold compute_outliers_with_mahalanobis_dist
    rw [hdz]
    have hdet0 : (covMatrix data).det = 0 := by
      rw [hcov]
      exact Matrix.det_zero (by
        refine ⟨⟨0, by omega⟩⟩)
    simp [hdet0, Nat.not_lt.mpr hd]

/-- Euclidean detector on all-identical-rows data with at least two columns
and a positive cutoff: every signed-sum score is 0, so no index is flagged. -/
theorem euclid_all_eq (chi2f : ℕ → ℚ) (data : List (List ℚ)) (r : List ℚ)
    (h : ∀ row ∈ data, row = r) (hne : data ≠ []) (hd : 2 ≤ numCols data)
    (hcut : 0 < chi2f (numCols data)) :
    compute_outliers_with_euclidean_dist chi2f data = .ok [] := by
  have hrect : ∀ row ∈ data, row.length = numCols data := by
    intro row hrow
    rw [h row hrow]
    unfold numCols
    cases data with
    | nil => exact absurd rfl hne
    | cons a rest =>
      rw [h a (by simp)]
      simp
  rw [euclid_eq_filter chi2f data hrect hd]
  refine congrArg Except.ok ?_
  rw [List.filter_eq_nil_iff.mpr ?_]
  intro i hi
  have hiL : i < data.length := List.mem_range.mp hi
  have hscore : rowScoreSpec data i = 0 := by
    unfold rowScoreSpec
    rw [sumRat_eq_sum]
    refine List.sum_eq_zero (fun x hx => ?_)
    obtain ⟨j, hj, hxe⟩ := List.mem_map.mp hx
    rw [← hxe]
    have h1 : ent data i j = r.getD j 0 := by
      unfold ent
      rw [getD_all_eq h hiL]
    rw [h1, colMean_all_eq hne h j, sub_self]
  rw [hscore]
  simp
  linarith

/-- C2 (amended): on a feature matrix whose rows are all identical, with at
least two rows and two columns and a positive chi-square cutoff, the
Euclidean detector returns the empty outlier list, while the Mahalanobis
detector returns the NaN sentinel (signalling the caller to fall back), not
an empty list. -/
theorem claim_C2_identical_rows_detectors (chi2f : ℕ → ℚ) (data : List (List ℚ))
    (r : List ℚ) (h : ∀ row ∈ data, row = r) (hn : 2 ≤ data.length)
    (hd : 2 ≤ numCols data) (hcut : 0 < chi2f (numCols data)) :
    compute_outliers_with_euclidean_dist chi2f data = .ok [] ∧
    compute_outliers_with_mahalanobis_dist chi2f data = none :=
  ⟨euclid_all_eq chi2f data r h (by
      intro hnil
      rw [hnil] at hn
      simp at hn) hd hcut,
   mahalanobis_all_eq chi2f data r h hn hd⟩

/-- C2 counterexample: on the identical-rows square matrix [[1,2],[1,2]] the
Mahalanobis detector returns the NaN sentinel, not the empty outlier list the
claim promises. -/
theorem claim_C2_mahalanobis_nan_not_empty_list :
    compute_outliers_with_mahalanobis_dist (fun _ => 6) [[1, 2], [1, 2]] = none ∧
    (none : Option (List ℕ)) ≠ some [] := by
  refine ⟨mahalanobis_all_eq (fun _ => 6) [[1, 2], [1, 2]] [1, 2] (by simp)
    (by decide) (by decide), ?_⟩
  intro h
  cases h

/-- C2 witness: the amended statement at the concrete matrix [[1,2],[1,2]]. -/
theorem claim_C2_identical_rows_detectors_witness :
    compute_outliers_with_euclidean_dist (fun _ => 6) [[1, 2], [1, 2]] = .ok [] ∧
    compute_outliers_with_mahalanobis_dist (fun _ => 6) [[1, 2], [1, 2]] = none :=
  claim_C2_identical_rows_detectors (fun _ => 6) [[1, 2], [1, 2]] [1, 2]
    (by simp) (by decide) (by decide) (by norm_num)

end VirToHost

namespace VirToHost

/-! ## Claim C8: idempotence of the MSA strategy -/

theorem FS.hasFile_write_self (fs : FS) (p : String) (c : FileContent) :
    (fs.write p c).hasFile p = true := by
  unfold FS.hasFile
  rw [FS.read_write, if_pos rfl]
  rfl

theorem FS.hasFile_write_ne (fs : FS) {p q : String} (c : FileContent) (h : q ≠ p) :
    (fs.write p c).hasFile q = fs.hasFile q := by
  unfold FS.hasFile
  rw [FS.read_write, if_neg h]

theorem FS.hasFile_remove_ne (fs : FS) {p q : String} (h : q ≠ p) :
    (fs.remove p).hasFile q = fs.hasFile q := by
  unfold FS.hasFile
  rw [FS.read_remove, if_neg h]

theorem FS.read_write_self (fs : FS) (p : String) (c : FileContent) :
    (fs.write p c).read p = some c := by
  rw [FS.read_write, if_pos rfl]

end VirToHost

namespace VirToHost

theorem FS.hasFile_remove_self (fs : FS) (p : String) : (fs.remove p).hasFile p = false := by
  unfold FS.hasFile
  rw [FS.read_remove, if_pos rfl]
  rfl

theorem FS.hasFile_write_mono (fs : FS) {q : String} (p : String) (c : FileContent)
    (h : fs.hasFile q = true) : (fs.write p c).hasFile q = true := by
  by_cases hqp : q = p
  · rw [hqp]
    exact FS.hasFile_write_self fs p c
  · rw [FS.hasFile_write_ne fs c hqp]
    exact h

theorem hasFile_ite_remove (fs : FS) {p q : String} (h : q ≠ p) :
    (if fs.hasFile p then fs.remove p else fs).hasFile q = fs.hasFile q := by
  by_cases hc : fs.hasFile p = true
  · rw [if_pos hc, FS.hasFile_remove_ne fs h]
  · rw [if_neg hc]

/-- MSA strategy on a state where the input, the aligned output and the
persisted similarity table all exist: the cached table is read back and its
statistics are returned, with no filesystem change. -/
theorem msa_cached (ext : Ext) (fs : FS) (path : String)
    (t : List (String × String × Option ℚ))
    (hP : fs.hasFile path = true)
    (hA : fs.hasFile (msaAlignedPath path) = true)
    (hC : fs.read (msaCsvPath path) = some (.csv t)) :
    get_sequence_similarity_with_multiple_alignment ext fs path =
      .ok (statsOf (t.map (fun r => r.2.2)), fs) := by
  have hCb : fs.hasFile (msaCsvPath path) = true := by
    unfold FS.hasFile
    rw [hC]
    rfl
  have hM : msaMafftPhase ext fs path = .ok (.done fs) := by
    unfold msaMafftPhase
    rw [if_pos hA]
  have hS : msaSimPhase fs path = .ok (t, fs) := by
    unfold msaSimPhase
    rw [if_neg (by simp [hCb]), hC]
  unfold get_sequence_similarity_with_multiple_alignment
  rw [if_neg (by simp [hP])]
  simp only [hM, hS]

/-- Second-run form of msa_cached, after the first run has just written the
similarity table. -/
theorem msa_cached_after_write (ext : Ext) (fsD : FS) (path : String)
    (t : List (String × String × Option ℚ))
    (hP : fsD.hasFile path = true)
    (hA : fsD.hasFile (msaAlignedPath path) = true)
    (hPC : path ≠ msaCsvPath path)
    (hAC : msaAlignedPath path ≠ msaCsvPath path) :
    get_sequence_similarity_with_multiple_alignment ext
      (fsD.write (msaCsvPath path) (.csv t)) path =
      .ok (statsOf (t.map (fun r => r.2.2)), fsD.write (msaCsvPath path) (.csv t)) :=
  msa_cached ext _ path t
    (by
      rw [FS.hasFile_write_ne fsD _ hPC]
      exact hP)
    (by
      rw [FS.hasFile_write_ne fsD _ hAC]
      exact hA)
    (FS.read_write_self _ _ _)

/-- When the similarity table is absent, a successful similarity phase has
necessarily computed the table and written it at the derived path. -/
theorem simPhase_fresh (fsD : FS) (path : String)
    (hCD : fsD.hasFile (msaCsvPath path) = false)
    {t : List (String × String × Option ℚ)} {f2 : FS}
    (h : msaSimPhase fsD path = .ok (t, f2)) :
    f2 = fsD.write (msaCsvPath path) (.csv t) := by
  unfold msaSimPhase at h
  rw [if_pos hCD] at h
  cases hRF : readFastaD fsD (msaAlignedPath path) with
  | nil =>
    rw [hRF] at h
    exact Except.noConfusion h
  | cons r rs =>
    simp only [hRF] at h
    cases hTM : buildTokenMap (r :: rs) with
    | none =>
      simp only [hTM] at h
      exact Except.noConfusion h
    | some m =>
      simp only [hTM] at h
      cases hPT : buildPairTable m with
      | error e =>
        simp only [hPT] at h
        exact Except.noConfusion h
      | ok t2 =>
        simp only [hPT, Except.ok.injEq, Prod.mk.injEq] at h
        rw [← h.1, h.2]

end VirToHost

namespace VirToHost

/-- C8: idempotence of the MSA similarity strategy.  Starting from a state
without the persisted similarity table, if a first run completes normally and
leaves the table at the derived _similarity_values.csv path, then a second
run on the resulting state detects and reuses the persisted table: it returns
the same four summary statistics and leaves the filesystem — in particular
the persisted table — unchanged.  The three disequality hypotheses only rule
out degenerate input paths whose derived aligned/log/table paths collide. -/
theorem claim_C8_msa_idempotent (ext : Ext) (fs0 : FS) (path : String)
    (r1 : List (Option ℚ)) (fs1 : FS)
    (hAC : msaAlignedPath path ≠ msaCsvPath path)
    (hLP : msaLogPath path ≠ path)
    (hLA : msaLogPath path ≠ msaAlignedPath path)
    (hfresh : fs0.hasFile (msaCsvPath path) = false)
    (h1 : get_sequence_similarity_with_multiple_alignment ext fs0 path = .ok (r1, fs1))
    (h2 : fs1.hasFile (msaCsvPath path) = true) :
    get_sequence_similarity_with_multiple_alignment ext fs1 path = .ok (r1, fs1) := by
  unfold get_sequence_similarity_with_multiple_alignment at h1
  by_cases hp : fs0.hasFile path = false
  · rw [if_pos hp] at h1
    simp only [Except.ok.injEq, Prod.mk.injEq] at h1
    rw [← h1.2] at h2
    rw [hfresh] at h2
    exact Bool.noConfusion h2
  · rw [if_neg hp] at h1
    have hp2 : fs0.hasFile path = true := by
      revert hp
      cases fs0.hasFile path <;> simp
    have hPC : path ≠ msaCsvPath path := by
      intro he
      rw [he] at hp2
      rw [hp2] at hfresh
      exact Bool.noConfusion hfresh
    by_cases hA0 : fs0.hasFile (msaAlignedPath path) = true
    · have hM : msaMafftPhase ext fs0 path = .ok (.done fs0) := by
        unfold msaMafftPhase
        rw [if_pos hA0]
      simp only [hM] at h1
      cases hS : msaSimPhase fs0 path with
      | error e =>
        simp only [hS] at h1
        exact Except.noConfusion h1
      | ok pr =>
        obtain ⟨t, f2⟩ := pr
        simp only [hS, Except.ok.injEq, Prod.mk.injEq] at h1
        have hf2 : f2 = fs0.write (msaCsvPath path) (.csv t) :=
          simPhase_fresh fs0 path hfresh hS
        rw [← h1.1, ← h1.2, hf2]
        exact msa_cached_after_write ext fs0 path t hp2 hA0 hPC hAC
    · have hA0f : fs0.hasFile (msaAlignedPath path) = false := by
        revert hA0
        cases fs0.hasFile (msaAlignedPath path) <;> simp
      cases hOr : ext.mafft (readFastaD fs0 path) with
      | none =>
        have hM : msaMafftPhase ext fs0 path =
            .ok (.fail (fs0.write (msaAlignedPath path) (.text ""))) := by
          unfold msaMafftPhase
          rw [if_neg (by simp [hA0f]), hOr]
        simp only [hM, Except.ok.injEq, Prod.mk.injEq] at h1
        rw [← h1.2] at h2
        rw [FS.hasFile_write_ne fs0 _ (Ne.symm hAC)] at h2
        rw [hfresh] at h2
        exact Bool.noConfusion h2
      | some al =>
        have hM : msaMafftPhase ext fs0 path =
            .ok (.done (if (fs0.write (msaAlignedPath path) (.fasta al)).hasFile
                (msaLogPath path) then
              (fs0.write (msaAlignedPath path) (.fasta al)).remove (msaLogPath path)
            else fs0.write (msaAlignedPath path) (.fasta al))) := by
          unfold msaMafftPhase
          rw [if_neg (by simp [hA0f]), hOr]
          simp [FS.hasFile_write_self]
        set fs1' := fs0.write (msaAlignedPath path) (.fasta al) with hfs1p
        set fsA := if fs1'.hasFile (msaLogPath path) then
            fs1'.remove (msaLogPath path) else fs1' with hfsA
        have hPA : fsA.hasFile path = true := by
          rw [hfsA, hasFile_ite_remove fs1' (Ne.symm hLP), hfs1p]
          exact FS.hasFile_write_mono fs0 _ _ hp2
        have hAA : fsA.hasFile (msaAlignedPath path) = true := by
          rw [hfsA, hasFile_ite_remove fs1' (Ne.symm hLA), hfs1p]
          exact FS.hasFile_write_self fs0 _ _
        have hCA : fsA.hasFile (msaCsvPath path) = false := by
          by_cases hCL : msaCsvPath path = msaLogPath path
          · rw [hfsA]
            by_cases hlc : fs1'.hasFile (msaLogPath path) = true
            · rw [if_pos hlc, hCL]
              exact FS.hasFile_remove_self fs1' (msaLogPath path)
            · rw [if_neg hlc, hCL]
              revert hlc
              cases fs1'.hasFile (msaLogPath path) <;> simp
          · rw [hfsA, hasFile_ite_remove fs1' hCL, hfs1p,
              FS.hasFile_write_ne fs0 _ (Ne.symm hAC)]
            exact hfresh
        simp only [hM] at h1
        cases hS : msaSimPhase fsA path with
        | error e =>
          simp only [hS] at h1
          exact Except.noConfusion h1
        | ok pr =>
          obtain ⟨t, f2⟩ := pr
          simp only [hS, Except.ok.injEq, Prod.mk.injEq] at h1
          have hf2 : f2 = fsA.write (msaCsvPath path) (.csv t) :=
            simPhase_fresh fsA path hCA hS
          rw [← h1.1, ← h1.2, hf2]
          exact msa_cached_after_write ext fsA path t hPA hAA hPC hAC

end VirToHost

namespace VirToHost

/-- Record used by the C8 witness. -/
def recX : SeqRecord := ⟨"x1", "x1", "ACGT"⟩

/-- Oracle environment whose aligner succeeds returning its input records. -/
def extMafft : Ext := ⟨fun rs => some rs, fun _ _ _ => none, fun _ _ _ => none, "/w"⟩

/-- Pairwise-similarity table the C8 witness run computes. -/
def tX : List (String × String × Option ℚ) := [("x1", "x1", some 1)]

/-- Initial filesystem of the C8 witness. -/
def fs0X : FS := ⟨[("x.fasta", .fasta [recX])]⟩

/-- Filesystem after the first C8 witness run: aligned output and persisted
similarity table added. -/
def fs1X : FS :=
  ⟨[("x_similarity_values.csv", .csv tX),
    ("x_aligned.fasta", .fasta [recX]),
    ("x.fasta", .fasta [recX])]⟩

/-- C8 witness: the idempotence statement applied to a concrete completed
first run. -/
theorem claim_C8_msa_idempotent_witness :
    get_sequence_similarity_with_multiple_alignment extMafft fs1X "x.fasta" =
      .ok (statsOf (tX.map (fun r => r.2.2)), fs1X) :=
  claim_C8_msa_idempotent extMafft fs0X "x.fasta"
    (statsOf (tX.map (fun r => r.2.2))) fs1X
    (by decide) (by decide) (by decide) (by decide) (by rfl) (by decide)

end VirToHost
